import Mathlib

/-!
Verification of the PolicyRadar retrieval pipeline against its design
specification.  The development shallowly embeds the two core modules
(`vector_indexer.py` and `rag_service.py`): Python strings are `List Char`,
Python floats are `ℚ`, external collaborators (embedding model, language
detector, HTTP text-generation call, JSON parsing, the clock) are explicit
function parameters, and CPython's hash-dependent `set` iteration order is
modelled by quantifying over admissible enumerations (`IsSetEnum`).
-/

/-- Whitespace test used by Python `str.strip()` and by the `\s` character
class of `re`, restricted to the ASCII whitespace characters. -/
def isPySpace (c : Char) : Bool :=
  c = ' ' || c = '\t' || c = '\n' || c = '\r' || c = '\x0b' || c = '\x0c'

/-- Python `str.strip()`: remove whitespace from the right end, then from the
left end. -/
def pyStrip (l : List Char) : List Char :=
  ((l.reverse.dropWhile isPySpace).reverse).dropWhile isPySpace

/-- Sentence-terminator class `[.!?]` of the chunker's split regex. -/
def isTerm (c : Char) : Bool :=
  c = '.' || c = '!' || c = '?'

/-- Does the list start with a whitespace character? -/
def headIsWS (l : List Char) : Bool :=
  match l with
  | [] => false
  | c :: _ => isPySpace c

/-- Scanner for `re.split(r'[.!?]+\s+', text)`: a separator is a maximal run
of terminators followed by at least one whitespace character; both runs are
consumed.  Fuel-indexed so the definition is structural (the fuel is always at
least the text length, so the fuel-0 row is reached only with empty text). -/
def splitSentAux : Nat → List Char → List Char → List (List Char)
  | 0, text, acc => [acc.reverse ++ text]
  | _ + 1, [], acc => [acc.reverse]
  | fuel + 1, c :: rest, acc =>
    if isTerm c && headIsWS (rest.dropWhile isTerm) then
      acc.reverse :: splitSentAux fuel ((rest.dropWhile isTerm).dropWhile isPySpace) []
    else
      splitSentAux fuel rest (c :: acc)

/-- The sentence list `re.split(r'[.!?]+\s+', text)` computed inside
`PolicyVectorStore._chunk_text`. -/
def splitSentences (text : List Char) : List (List Char) :=
  splitSentAux text.length text []

/-- Does the text contain a sentence separator, i.e. a match of
`[.!?]+\s+`?  Used to characterise the inputs on which `re.split` returns the
whole text unsplit. -/
def hasSeparator : List Char → Bool
  | [] => false
  | c :: rest => (isTerm c && headIsWS (rest.dropWhile isTerm)) || hasSeparator rest

namespace PolicyVectorStore

/-- The sentence-accumulation loop of `PolicyVectorStore._chunk_text`
(vector_indexer.py lines 113-122): greedily extend `current` while
`len(current + sentence) <= max_length`, appending `sentence + ". "`;
otherwise flush `current.strip()` and restart the buffer. -/
def chunkLoop (maxLength : Nat) :
    List (List Char) → List (List Char) → List Char → List (List Char)
  | [], chunks, current =>
    if current = [] then chunks else chunks ++ [pyStrip current]
  | s :: rest, chunks, current =>
    if (current ++ s).length ≤ maxLength then
      chunkLoop maxLength rest chunks (current ++ s ++ ((". ").data))
    else if current = [] then
      chunkLoop maxLength rest chunks (s ++ ((". ").data))
    else
      chunkLoop maxLength rest (chunks ++ [pyStrip current]) (s ++ ((". ").data))

/-- The character-based fallback of `_chunk_text` (lines 125-127):
`for i in range(0, len(text), max_length): chunks.append(text[i:i+max_length])`. -/
def fixedSlices (text : List Char) (maxLength : Nat) : List (List Char) :=
  (List.range ((text.length + maxLength - 1) / maxLength)).map
    (fun i => (text.drop (i * maxLength)).take maxLength)

/-- `PolicyVectorStore._chunk_text` (vector_indexer.py lines 103-129). -/
def chunk_text (text : List Char) (maxLength : Nat) : List (List Char) :=
  if text = [] then []
  else if text.length ≤ maxLength then [text]
  else
    let chunks := chunkLoop maxLength (splitSentences text) [] []
    if chunks = [] then fixedSlices text maxLength else chunks

end PolicyVectorStore

/-- CPython's `list(set(xs))` for a list of strings: the iteration order of a
`set` is unspecified (string hashing is randomized per process), so the only
guarantee is a duplicate-free enumeration of the elements.  Both
`_expand_query` and `_detect_eurovoc_concepts` end with such a conversion. -/
def IsSetEnum (enum : List (List Char) → List (List Char)) : Prop :=
  ∀ xs, (enum xs).Nodup ∧ ∀ x, x ∈ enum xs ↔ x ∈ xs

/-- Helper for first-seen-order deduplication: drop elements already seen. -/
def dedupSeen : List (List Char) → List (List Char) → List (List Char)
  | [], _ => []
  | x :: rest, seen =>
    if x ∈ seen then dedupSeen rest seen else x :: dedupSeen rest (x :: seen)

/-- First-seen-order deduplication: one admissible enumeration of a set, and
the one the specification's expansion contract asks for. -/
def dedupKeepFirst (xs : List (List Char)) : List (List Char) :=
  dedupSeen xs []

/-- Another admissible `set` enumeration, with the order reversed; used to
exhibit order-dependence of `list(set(...))` results. -/
def revEnum (xs : List (List Char)) : List (List Char) :=
  (dedupKeepFirst xs).reverse

/-- Python `str.lower()` (ASCII fragment). -/
def pyLower (l : List Char) : List Char :=
  l.map Char.toLower

namespace PolicyVectorStore

/-- The hard-coded concept table of `PolicyVectorStore._load_eurovoc_concepts`
(vector_indexer.py lines 74-80); Python dicts iterate in insertion order. -/
def eurovocDefault : List (List Char × List (List Char)) :=
  [ ((("energy").data),
      [(("renewable energy").data), (("energy policy").data),
       (("energy security").data), (("energy transition").data)]),
    ((("transport").data),
      [(("sustainable transport").data), (("electric vehicles").data),
       (("public transport").data), (("mobility").data)]),
    ((("hydrogen").data),
      [(("hydrogen economy").data), (("fuel cells").data),
       (("clean energy").data), (("energy storage").data)]),
    ((("climate").data),
      [(("climate change").data), (("greenhouse gases").data),
       (("carbon neutrality").data), (("emissions").data)]),
    ((("environment").data),
      [(("environmental policy").data), (("pollution control").data),
       (("biodiversity").data), (("circular economy").data)]) ]

/-- Python `dict` lookup on the association-list model of a dict. -/
def lookupTable (m : List (List Char × List (List Char))) (key : List Char) :
    Option (List (List Char)) :=
  (m.find? (fun p => p.1 == key)).map Prod.snd

/-- The insertion sequence of the `concepts` set built by
`PolicyVectorStore._detect_eurovoc_concepts` (lines 83-101); the method
returns `list(concepts)`, modelled by applying a set enumeration to this
sequence. -/
def conceptCandidates (m : List (List Char × List (List Char)))
    (text : List Char) (topics : List (List Char)) : List (List Char) :=
  let textLower := pyLower text
  (topics.flatMap (fun topic =>
    match lookupTable m (pyLower topic) with
    | some terms => terms
    | none => []))
  ++ m.flatMap (fun grp =>
      grp.2.flatMap (fun kw =>
        if (pyLower kw).IsInfix textLower then grp.1 :: grp.2.take 2 else []))

end PolicyVectorStore

namespace PolicyRAGService

/-- The domain synonym table hard-coded in `PolicyRAGService._expand_query`
(rag_service.py lines 69-76). -/
def synonymsTable : List (List Char × List (List Char)) :=
  [ ((("regulation").data),
      [(("directive").data), (("legislation").data), (("law").data), (("policy").data)]),
    ((("hydrogen").data),
      [(("H2").data), (("fuel cell").data), (("clean fuel").data)]),
    ((("electric").data),
      [(("EV").data), (("battery").data), (("electric vehicle").data)]),
    ((("transport").data),
      [(("mobility").data), (("transportation").data), (("logistics").data)]),
    ((("climate").data),
      [(("environmental").data), (("carbon").data), (("emissions").data), (("green").data)]),
    ((("energy").data),
      [(("power").data), (("electricity").data), (("renewable").data)]) ]

/-- The `expansions` list built by `PolicyRAGService._expand_query`
(rag_service.py lines 53-81) before the final `list(set(expansions))`:
the original query, then per concept-table entry the concept hits and the
term hits, then the synonym-table hits.  Python `in` on strings is substring
containment, modelled by `List.IsInfix`. -/
def expansionCandidates (eurovocMap : List (List Char × List (List Char)))
    (query : List Char) : List (List Char) :=
  let ql := pyLower query
  [query]
  ++ eurovocMap.flatMap (fun ct =>
      (if ct.1.IsInfix ql then ct.2.take 3 else [])
      ++ ct.2.flatMap (fun term =>
          if (pyLower term).IsInfix ql then
            ct.1 :: (ct.2.filter (fun t => ! (t == term))).take 2
          else []))
  ++ synonymsTable.flatMap (fun kv => if kv.1.IsInfix ql then kv.2 else [])

/-- `PolicyRAGService._expand_query` (rag_service.py lines 53-82): the final
`return list(set(expansions))` is an unspecified-order set enumeration,
passed in as `enum`. -/
def expand_query (enum : List (List Char) → List (List Char))
    (eurovocMap : List (List Char × List (List Char))) (query : List Char) :
    List (List Char) :=
  enum (expansionCandidates eurovocMap query)

end PolicyRAGService

/-- The `DocumentChunk` dataclass of vector_indexer.py (lines 38-53); the
free-form `metadata` dict is modelled as a string-to-string association
list. -/
structure DocumentChunk where
  chunk_id : List Char
  doc_id : List Char
  source : List Char
  doc_type : List Char
  title : List Char
  content : List Char
  language : List Char
  url : List Char
  published : Option (List Char)
  topics : List (List Char)
  eurovoc_concepts : List (List Char)
  chunk_index : Nat
  metadata : List (List Char × List Char)
deriving DecidableEq

/-- The mutable state of a `PolicyVectorStore`: the chunk metadata list
`self.chunks` and the vectors held by the FAISS `IndexFlatIP`, addressed by
the same integer position. -/
structure Store where
  chunks : List DocumentChunk
  vectors : List (List ℚ)
deriving DecidableEq

/-- Inner product of two vectors, the similarity used by `IndexFlatIP`. -/
def dot (a b : List ℚ) : ℚ :=
  ((a.zip b).map (fun p => p.1 * p.2)).sum

/-- Top-`n` inner-product search of `faiss.IndexFlatIP`: every stored vector
is scored against the query and the `n` best (score, position) pairs are
returned best-first; ties are modelled as resolved by insertion position
(stable sort over the scan order).  When fewer than `n` vectors exist FAISS
pads with index -1, which the caller skips; returning only the valid entries
is equivalent.  A request for `n = 0` candidates is modelled as returning no
candidates (recent FAISS Python wrappers instead reject `k = 0` with an
assertion; the repository never reaches it except through
`_retrieve_documents` with `k <= 1`). -/
def faissTopK (q : List ℚ) (vecs : List (List ℚ)) (n : Nat) : List (Nat × ℚ) :=
  (List.insertionSort (fun a b : Nat × ℚ => b.2 ≤ a.2)
    ((vecs.enum).map (fun p => (p.1, dot q p.2)))).take n

namespace PolicyVectorStore

/-- Filter test of `search` (lines 223-226): Python truthiness means a `None`
or empty-string filter disables filtering, otherwise exact match. -/
def passesFilter (f : Option (List Char)) (v : List Char) : Bool :=
  match f with
  | none => true
  | some s => s == [] || v == s

/-- The candidate loop of `search` (lines 215-231): walk the FAISS candidates
in order, apply the filters, and stop as soon as `k` results are collected. -/
def searchLoop (st : Store) (k : Nat) (srcF docF : Option (List Char)) :
    List (Nat × ℚ) → List (DocumentChunk × ℚ) → List (DocumentChunk × ℚ)
  | [], results => results
  | (i, score) :: rest, results =>
    match st.chunks[i]? with
    | none => searchLoop st k srcF docF rest results
    | some chunk =>
      if passesFilter srcF chunk.source && passesFilter docF chunk.doc_type then
        let results2 := results ++ [(chunk, score)]
        if k ≤ results2.length then results2 else searchLoop st k srcF docF rest results2
      else searchLoop st k srcF docF rest results

/-- `PolicyVectorStore.search` (vector_indexer.py lines 205-233): embed the
query (`embedQ` abstracts the sentence-transformer), fetch `k * 3` candidates
from the FAISS index, then filter and truncate.  The out-of-range guard in
`searchLoop` is unreachable when `chunks` and `vectors` have equal length. -/
def search (embedQ : List Char → List ℚ) (st : Store) (query : List Char)
    (k : Nat) (srcF docF : Option (List Char)) : List (DocumentChunk × ℚ) :=
  searchLoop st k srcF docF (faissTopK (embedQ query) st.vectors (k * 3)) []

end PolicyVectorStore

namespace PolicyRAGService

/-- The secondary-search plan of `PolicyRAGService._retrieve_documents`
(rag_service.py lines 100-107): the loop `for term in expanded_terms[1:4]`
issues one search per term with `k=k//2` (no lower bound is applied). -/
def secondaryPlan (enum : List (List Char) → List (List Char))
    (eurovocMap : List (List Char × List (List Char))) (query : List Char)
    (k : Nat) : List (List Char × Nat) :=
  (((expand_query enum eurovocMap query).drop 1).take 3).map (fun t => (t, k / 2))

/-- The dedup-by-`chunk_id` pass of `_retrieve_documents` (lines 110-117),
run over the score-sorted pool, keeping the first (hence highest-scoring)
occurrence of each chunk id. -/
def dedupResults : List (DocumentChunk × ℚ) → List (List Char) →
    List (DocumentChunk × ℚ)
  | [], _ => []
  | (c, s) :: rest, seen =>
    if c.chunk_id ∈ seen then dedupResults rest seen
    else (c, s) :: dedupResults rest (c.chunk_id :: seen)

/-- `PolicyRAGService._retrieve_documents` (rag_service.py lines 84-119).
Python's `sorted(..., reverse=True)` is a stable descending sort, modelled by
`insertionSort` with non-strict comparison. -/
def retrieve_documents (embedQ : List Char → List ℚ)
    (enum : List (List Char) → List (List Char)) (st : Store)
    (eurovocMap : List (List Char × List (List Char))) (query : List Char)
    (k : Nat) (srcF docF : Option (List Char)) : List (DocumentChunk × ℚ) :=
  let results := PolicyVectorStore.search embedQ st query k srcF docF
    ++ (secondaryPlan enum eurovocMap query k).flatMap
        (fun p => PolicyVectorStore.search embedQ st p.1 p.2 srcF docF)
  (dedupResults
    (List.insertionSort (fun a b : DocumentChunk × ℚ => b.2 ≤ a.2) results) []).take k

end PolicyRAGService

/-- Outcome of the one external HTTP text-generation call made by
`_call_llm`: either `requests.post` (or response decoding) raised, or a
response with a status code and body text arrived. -/
inductive LLMOutcome where
  | exn (msg : List Char)
  | response (status : Nat) (body : List Char)
deriving DecidableEq

/-- The external call failed: it raised, or returned a non-success status. -/
def LLMFailed : LLMOutcome → Prop
  | .exn _ => True
  | .response status _ => status ≠ 200

namespace PolicyRAGService

/-- `PolicyRAGService._template_response` (rag_service.py lines 198-208);
`_call_llm` passes the whole user prompt as the `query` argument. -/
def template_response (query : List Char) : List Char :=
  (("Based on the available Policy Radar sources, here are the key findings for: \"").data)
  ++ query
  ++ (("\"\n\n[This is a template response - LLM integration pending]\n\nThe sources indicate relevant policy developments in this area. For detailed analysis, please review the cited documents directly.\n\n[1] Multiple sources found matching your query\n[2] Additional context available in EUR-Lex documentation\n[3] Recent procedural updates from European Parliament data").data)

/-- The system prompt built by `_generate_answer` (lines 137-146). -/
def buildSystemPrompt (language : List Char) : List Char :=
  (("You are a Policy Radar assistant specializing in EU policy and legislation analysis. \n\nCRITICAL INSTRUCTIONS:\n- Answer in ").data)
  ++ language
  ++ ((" language\n- ALWAYS cite your sources using [SOURCE_NUMBER] format\n- Only use information from the provided sources\n- If sources don\x27t contain sufficient information, say so clearly\n- Provide specific dates, document numbers, and URLs when available\n- Focus on official sources (EUR-Lex, EP) over news sources when possible\n- Be precise about regulatory status (proposed, adopted, in force, etc.)").data)

/-- The numbered context block built by `_generate_answer` (lines 126-134)
from at most the first 6 sources. -/
def buildContext (sources : List DocumentChunk) : List Char :=
  (List.intersperse (("\n").data)
    ((sources.take 6).enum.map (fun p =>
      (("[").data) ++ ((toString (p.1 + 1)).data) ++ (("] Source: ").data)
      ++ p.2.source ++ ((" (").data) ++ p.2.doc_type ++ ((")").data)
      ++ (match p.2.published with
          | none => []
          | some d => if d = [] then [] else ((" | Date: ").data) ++ d.take 10)
      ++ (("\nTitle: ").data) ++ p.2.title
      ++ (("\nContent: ").data) ++ p.2.content.take 400
      ++ (("...\nURL: ").data) ++ p.2.url ++ (("\n").data)))).flatten

/-- The user prompt built by `_generate_answer` (lines 148-155). -/
def buildUserPrompt (query : List Char) (sources : List DocumentChunk) : List Char :=
  (("Query: ").data) ++ query ++ (("\n\nAvailable Sources:\n").data)
  ++ buildContext sources
  ++ (("\n\nPlease provide a comprehensive answer to the query using ONLY the information from the sources above. \nEvery factual claim must be cited with [SOURCE_NUMBER]. \nIf the sources don\x27t contain enough information, state this clearly.").data)

/-- `PolicyRAGService._call_llm` (rag_service.py lines 165-196).  With the
`"claude"` provider the internal `try/except` turns a raised exception into
the string `"LLM Error: ..."` and a non-200 status into `"API Error: ..."`;
the template fallback is reached only when the provider is not `"claude"`
(the system prompt is only sent over the wire, so it does not influence the
returned text). -/
def call_llm (provider : List Char) (outcome : LLMOutcome)
    (_systemPrompt userPrompt : List Char) : List Char :=
  if provider = (("claude").data) then
    match outcome with
    | .exn e => (("LLM Error: ").data) ++ e
    | .response status body =>
      if status = 200 then body
      else (("API Error: ").data) ++ ((toString status).data)
  else template_response userPrompt

/-- Occurrence count of `re.findall(r'\[(\d+)\]', answer)` (line 214): every
non-overlapping `[digits]` marker is counted, duplicates included.
Fuel-indexed scan (the fuel is always at least the remaining length). -/
def countCitationsAux : Nat → List Char → Nat
  | 0, _ => 0
  | _ + 1, [] => 0
  | fuel + 1, c :: rest =>
    if c = '[' then
      let ds := rest.takeWhile Char.isDigit
      if ! (ds == []) && ((rest.drop ds.length).headD ' ' == ']') then
        1 + countCitationsAux fuel (rest.drop (ds.length + 1))
      else countCitationsAux fuel rest
    else countCitationsAux fuel rest

/-- Number of (possibly repeated) bracket-citation markers in the answer. -/
def countCitations (answer : List Char) : Nat :=
  countCitationsAux answer.length answer

/-- The digit groups of the citation markers, in match order; used to state
the specification's "distinct markers" reading next to the code's
occurrence count. -/
def citationMarkersAux : Nat → List Char → List (List Char)
  | 0, _ => []
  | _ + 1, [] => []
  | fuel + 1, c :: rest =>
    if c = '[' then
      let ds := rest.takeWhile Char.isDigit
      if ! (ds == []) && ((rest.drop ds.length).headD ' ' == ']') then
        ds :: citationMarkersAux fuel (rest.drop (ds.length + 1))
      else citationMarkersAux fuel rest
    else citationMarkersAux fuel rest

/-- Modelled from the spec: "count of distinct bracket-citation markers found
in the answer text" — the number of distinct digit groups among the matches
(the code instead counts every occurrence). -/
def distinctCitations (answer : List Char) : Nat :=
  (dedupKeepFirst (citationMarkersAux answer.length answer)).length

/-- The source-tier bonus of `_estimate_confidence` (lines 222-228): official
sources get higher scores. -/
def sourceBonus (source : List Char) : ℚ :=
  if source = (("EUR-Lex").data) then 0.3
  else if source = (("EP Open Data").data) then 0.25
  else if source = (("EURACTIV").data) then 0.15
  else 0

/-- The recency bonus of `_estimate_confidence` (lines 230-240): `daysOld`
abstracts `datetime.fromisoformat` plus the subtraction from
`datetime.now()`, with `none` meaning the parse raised (the `except: pass`);
a `None` or empty `published` field is falsy and skips the block. -/
def recencyBonus (daysOld : List Char → Option ℤ) (published : Option (List Char)) : ℚ :=
  match published with
  | none => 0
  | some p =>
    if p = [] then 0
    else
      match daysOld p with
      | none => 0
      | some d => if d < 30 then 0.1 else if d < 90 then 0.05 else 0

/-- Per-source quality score of `_estimate_confidence` (lines 218-242): base
0.5 plus the tier and recency bonuses, capped at 1.0. -/
def sourceScore (daysOld : List Char → Option ℤ) (c : DocumentChunk) : ℚ :=
  min (0.5 + sourceBonus c.source + recencyBonus daysOld c.published) 1

/-- `PolicyRAGService._estimate_confidence` (rag_service.py lines 210-249). -/
def estimate_confidence (daysOld : List Char → Option ℤ) (answer : List Char)
    (sources : List DocumentChunk) : ℚ :=
  let citations := countCitations answer
  let maxCitations := min sources.length 6
  let citationScore : ℚ :=
    if 0 < maxCitations then (citations : ℚ) / (maxCitations : ℚ) else 0
  let sourceScores := sources.map (sourceScore daysOld)
  let avgSourceScore : ℚ :=
    if sourceScores = [] then 0.5
    else sourceScores.sum / (sourceScores.length : ℚ)
  min (citationScore * 0.4 + avgSourceScore * 0.6) 1

/-- Modelled from the spec: the confidence formula of section 4.6, with
`citations` the count of DISTINCT markers and the result clamped to [0,1];
kept next to `estimate_confidence` for comparison. -/
def confidenceSpec (daysOld : List Char → Option ℤ) (answer : List Char)
    (sources : List DocumentChunk) : ℚ :=
  let citations := distinctCitations answer
  let maxCitations := min sources.length 6
  let citationScore : ℚ :=
    if 0 < maxCitations then (citations : ℚ) / (maxCitations : ℚ) else 0
  let sourceScores := sources.map (sourceScore daysOld)
  let avgSourceScore : ℚ :=
    if sourceScores = [] then 0.5
    else sourceScores.sum / (sourceScores.length : ℚ)
  max 0 (min (citationScore * 0.4 + avgSourceScore * 0.6) 1)

/-- `PolicyRAGService._generate_answer` (rag_service.py lines 121-163).
`_call_llm` catches its own exceptions and `_estimate_confidence` cannot
raise, so the `except` branch of lines 162-163 is unreachable and the
embedding is the `try` branch; the default `language="en"` is what `query`
passes. -/
def generate_answer (provider : List Char) (outcome : LLMOutcome)
    (daysOld : List Char → Option ℤ) (query : List Char)
    (sources : List DocumentChunk) : List Char × ℚ :=
  let answer := call_llm provider outcome (buildSystemPrompt (("en").data))
    (buildUserPrompt query sources)
  (answer, estimate_confidence daysOld answer sources)

/-- The `RAGResult` dataclass of rag_service.py (lines 30-37). -/
structure RAGResult where
  answer : List Char
  sources : List DocumentChunk
  query_expansion : List (List Char)
  confidence : ℚ
  language : List Char
deriving DecidableEq

/-- `PolicyRAGService.query` (rag_service.py lines 251-285): expansion,
retrieval, answer generation, language fixed to `"en"`. -/
def query (embedQ : List Char → List ℚ)
    (enum : List (List Char) → List (List Char)) (provider : List Char)
    (outcome : LLMOutcome) (daysOld : List Char → Option ℤ) (st : Store)
    (eurovocMap : List (List Char × List (List Char))) (q : List Char)
    (srcF docF : Option (List Char)) (k : Nat) : RAGResult :=
  let expanded := expand_query enum eurovocMap q
  let sourcesWithScores := retrieve_documents embedQ enum st eurovocMap q k srcF docF
  let sources := sourcesWithScores.map Prod.fst
  let answerConf := generate_answer provider outcome daysOld q sources
  { answer := answerConf.1, sources := sources, query_expansion := expanded,
    confidence := answerConf.2, language := (("en").data) }

end PolicyRAGService

/-- The `config` dictionary persisted by `save_index` (vector_indexer.py
lines 247-252). -/
structure IndexConfig where
  model_name : List Char
  dimension : Nat
  num_chunks : Nat
  eurovoc_map : List (List Char × List (List Char))
deriving DecidableEq

/-- An index directory as `load_index` sees it: each artifact is present
(with its parsed content) or missing. -/
structure IndexDir where
  faiss_index : Option (List (List ℚ))
  chunks_pkl : Option (List DocumentChunk)
  config_json : Option IndexConfig
deriving DecidableEq

/-- Errors that can escape `load_index`: `faiss.read_index` raises its own
error on a missing or unreadable file, and `open` raises a file-not-found
error for the pickle and config files.  No other error is possible:
the method performs no consistency validation. -/
inductive LoadError where
  | faissReadError
  | fileNotFound (name : List Char)
deriving DecidableEq

namespace PolicyVectorStore

/-- `PolicyVectorStore.load_index` (vector_indexer.py lines 259-273): read
the three artifacts in order and return them; the loaded chunk list, vector
count and config are never cross-checked. -/
def load_index (dir : IndexDir) : Except LoadError (Store × IndexConfig) :=
  match dir.faiss_index with
  | none => .error .faissReadError
  | some vecs =>
    match dir.chunks_pkl with
    | none => .error (.fileNotFound (("chunks.pkl").data))
    | some cs =>
      match dir.config_json with
      | none => .error (.fileNotFound (("config.json").data))
      | some cfg => .ok ({ chunks := cs, vectors := vecs }, cfg)

end PolicyVectorStore

/-- A parsed input record (`DocItem` JSON object) as `add_documents` consumes
it: `doc['id']`, `doc['source']`, `doc['doc_type']`, `doc['title']`,
`doc['url']` are accessed unconditionally; `summary`/`body_text` default to
the empty string; the rest are `doc.get(...)` optionals. -/
structure DocRecord where
  id : List Char
  source : List Char
  doc_type : List Char
  title : List Char
  summary : List Char
  body_text : List Char
  language : Option (List Char)
  url : List Char
  published : Option (List Char)
  topics : List (List Char)
  extra : List (List Char × List Char)
deriving DecidableEq

/-- Errors of the ingestion read path: the stream cannot be opened, or a
non-blank line failed to parse as JSON (in the code, `json.loads` raises and
the whole list comprehension — hence the whole batch — aborts). -/
inductive IngestError where
  | cannotOpen
  | malformedLine (line : List Char)
deriving DecidableEq

namespace PolicyVectorStore

/-- The parse loop of the list comprehension
`[json.loads(line) for line in f if line.strip()]`: the first parse failure
aborts everything. -/
def parseLines (parse : List Char → Except (List Char) DocRecord) :
    List (List Char) → Except IngestError (List DocRecord)
  | [] => .ok []
  | l :: rest =>
    match parse l with
    | .error _ => .error (.malformedLine l)
    | .ok d =>
      match parseLines parse rest with
      | .error e => .error e
      | .ok ds => .ok (d :: ds)

/-- Lines 135-136 of `add_documents`: open the stream (`none` models an
unopenable path, whose `open` error aborts the batch), keep the non-blank
lines, and parse each with `json.loads` (abstracted by `parse`). -/
def readDocuments (parse : List Char → Except (List Char) DocRecord) :
    Option (List (List Char)) → Except IngestError (List DocRecord)
  | none => .error .cannotOpen
  | some lines => parseLines parse (lines.filter (fun l => ! (pyStrip l == [])))

/-- Python `' '.join(filter(None, parts))` building the searchable text
(lines 143-148). -/
def joinSpace (parts : List (List Char)) : List Char :=
  (List.intersperse ((" ").data) (parts.filter (fun p => ! (p == [])))).flatten

/-- The language fallback chain `doc.get('language') or detect(...)` wrapped
in `try/except` with `'en'` on failure (lines 153-157); `detectLang` abstracts
`langdetect.detect`, `none` meaning it raised. -/
def docLanguage (detectLang : List Char → Option (List Char))
    (doc : DocRecord) (text : List Char) : List Char :=
  match doc.language with
  | some l => if l = [] then (detectLang text).getD (("en").data) else l
  | none => (detectLang text).getD (("en").data)

/-- Per-document chunk construction of `add_documents` (lines 141-186):
skip documents whose searchable text strips to empty, detect the language,
detect EuroVoc concepts (a `list(set(...))`, via `enum`), chunk the text with
`max_length=400`, and build one `DocumentChunk` per slice. -/
def processDoc (enum : List (List Char) → List (List Char))
    (detectLang : List Char → Option (List Char)) (doc : DocRecord) :
    List DocumentChunk :=
  let searchable := joinSpace [doc.title, doc.summary, doc.body_text]
  if pyStrip searchable = [] then []
  else
    let language := docLanguage detectLang doc searchable
    let concepts := enum (conceptCandidates eurovocDefault searchable doc.topics)
    (chunk_text searchable 400).enum.map (fun p =>
      { chunk_id := doc.id ++ (("_").data) ++ ((toString p.1).data)
        doc_id := doc.id
        source := doc.source
        doc_type := doc.doc_type
        title := doc.title
        content := p.2
        language := language
        url := doc.url
        published := doc.published
        topics := doc.topics
        eurovoc_concepts := concepts
        chunk_index := p.1
        metadata := doc.extra })

/-- The batched embedding loop of `add_documents` (lines 189-196) with
`batch_size = 32`; fuel-indexed (the fuel is at least the number of texts, so
the fuel-0 row is reached only with no texts left). -/
def embedBatchesAux (embed : List Char → List ℚ) : Nat → List (List Char) → List (List ℚ)
  | 0, _ => []
  | _ + 1, [] => []
  | fuel + 1, t :: ts =>
    ((t :: ts).take 32).map embed ++ embedBatchesAux embed fuel ((t :: ts).drop 32)

/-- All embeddings produced by the batching loop, in order. -/
def embedBatches (embed : List Char → List ℚ) (texts : List (List Char)) :
    List (List ℚ) :=
  embedBatchesAux embed texts.length texts

/-- `PolicyVectorStore.add_documents` (vector_indexer.py lines 131-203) on an
already-parsed document batch: append one `DocumentChunk` per slice to
`self.chunks` while collecting `all_texts` in the same order, embed the texts
in batches of 32, append those vectors to the FAISS index, and return the
number of embeddings. -/
def add_documents (embed : List Char → List ℚ)
    (enum : List (List Char) → List (List Char))
    (detectLang : List Char → Option (List Char)) (docs : List DocRecord)
    (st : Store) : Store × Nat :=
  let newChunks := docs.flatMap (processDoc enum detectLang)
  let embeddings := embedBatches embed (newChunks.map (fun c => c.content))
  ({ chunks := st.chunks ++ newChunks, vectors := st.vectors ++ embeddings },
    embeddings.length)

/-- `add_documents` including its read of the JSONL stream (lines 135-136). -/
def add_documents_from (embed : List Char → List ℚ)
    (enum : List (List Char) → List (List Char))
    (detectLang : List Char → Option (List Char))
    (parse : List Char → Except (List Char) DocRecord)
    (stream : Option (List (List Char))) (st : Store) :
    Except IngestError (Store × Nat) :=
  (readDocuments parse stream).map (fun docs => add_documents embed enum detectLang docs st)

end PolicyVectorStore

/-- Bound satisfied by every chunk the accumulation loop emits: at most
`maxL + 1` characters, unless the chunk came from a single sentence of `S`
that alone exceeds `maxL`. -/
def ChunkBound (maxL : Nat) (S : List (List Char)) (c : List Char) : Prop :=
  c.length ≤ maxL + 1 ∨ ∃ s ∈ S, maxL < s.length ∧ c.length ≤ s.length + 1

/-- Invariant of the running buffer of the loop: empty, or of the form
`w ++ ". "` where `w` fits in `maxL` or is bounded by a single over-long
sentence of `S`. -/
def BufOk (maxL : Nat) (S : List (List Char)) (current : List Char) : Prop :=
  current = [] ∨ ∃ w, current = w ++ ((". ").data) ∧
    (w.length ≤ maxL ∨ ∃ s ∈ S, maxL < s.length ∧ w.length ≤ s.length)

instance exceptDecEq {ε α : Type} [DecidableEq ε] [DecidableEq α] :
    DecidableEq (Except ε α) := fun a b =>
  match a, b with
  | .error x, .error y =>
    if h : x = y then .isTrue (by rw [h]) else .isFalse (fun hc => h (Except.error.inj hc))
  | .error _, .ok _ => .isFalse (fun hc => Except.noConfusion hc)
  | .ok _, .error _ => .isFalse (fun hc => Except.noConfusion hc)
  | .ok x, .ok y =>
    if h : x = y then .isTrue (by rw [h]) else .isFalse (fun hc => h (Except.ok.inj hc))

/-- A concrete chunk from the top-tier source, used in concrete runs. -/
def chunkEurLex : DocumentChunk :=
  { chunk_id := (("d_0").data), doc_id := (("d").data)
    source := (("EUR-Lex").data), doc_type := (("legal").data)
    title := (("T").data), content := (("C").data)
    language := (("en").data), url := (("u").data)
    published := none, topics := [], eurovoc_concepts := []
    chunk_index := 0, metadata := [] }

/-- A one-document store holding `chunkEurLex`. -/
def st1 : Store := { chunks := [chunkEurLex], vectors := [[1]] }

/-- A query embedding that sends every string to the unit vector `[1]`. -/
def e1 : List Char → List ℚ := fun _ => [1]

/-- Chunk `i` from source `"B"`, for the filter-starvation store. -/
def bChunk (i : Nat) : DocumentChunk :=
  { chunk_id := (("b_").data) ++ ((toString i).data), doc_id := (("b").data)
    source := (("B").data), doc_type := (("news").data)
    title := (("Tb").data), content := (("Cb").data)
    language := (("en").data), url := (("u").data)
    published := none, topics := [], eurovoc_concepts := []
    chunk_index := i, metadata := [] }

/-- The single source-`"A"` chunk of the filter-starvation store. -/
def aChunk : DocumentChunk :=
  { chunk_id := (("a_0").data), doc_id := (("a").data)
    source := (("A").data), doc_type := (("news").data)
    title := (("Ta").data), content := (("Ca").data)
    language := (("en").data), url := (("u").data)
    published := none, topics := [], eurovoc_concepts := []
    chunk_index := 0, metadata := [] }

/-- Store in which the three highest-scoring chunks are from source `"B"` and
the single source-`"A"` chunk scores lowest. -/
def st10 : Store :=
  { chunks := [bChunk 0, bChunk 1, bChunk 2, aChunk]
    vectors := [[4], [3], [2], [1]] }

/-- A placeholder chunk for positional lookups with a default. -/
def emptyChunk : DocumentChunk :=
  { chunk_id := [], doc_id := [], source := [], doc_type := []
    title := [], content := [], language := [], url := []
    published := none, topics := [], eurovoc_concepts := []
    chunk_index := 0, metadata := [] }

/-- A minimal parsed document record, the output of the toy parser. -/
def toyDoc : DocRecord :=
  { id := (("d").data), source := (("EUR-Lex").data)
    doc_type := (("legal").data), title := (("T").data)
    summary := [], body_text := [], language := some (("en").data)
    url := (("u").data), published := none, topics := [], extra := [] }

/-- A toy line parser standing in for `json.loads`: only the line `good`
parses; every other line raises. -/
def toyParse (l : List Char) : Except (List Char) DocRecord :=
  if l = (("good").data) then .ok toyDoc else .error l

/-- A config recording five chunks, disagreeing with the empty chunk list. -/
def mismatchConfig : IndexConfig :=
  { model_name := (("m").data), dimension := 1, num_chunks := 5
    eurovoc_map := [] }

/-- An index directory whose artifacts are all present but mutually
inconsistent: one vector, zero chunks, a config recording five chunks. -/
def mismatchDir : IndexDir :=
  { faiss_index := some [[1]], chunks_pkl := some []
    config_json := some mismatchConfig }

theorem dedupSeen_mem : ∀ (xs seen : List (List Char)) (x : List Char),
    x ∈ dedupSeen xs seen ↔ x ∈ xs ∧ x ∉ seen := by
  intro xs
  induction xs with
  | nil => intro seen x; simp [dedupSeen]
  | cons a rest ih =>
    intro seen x
    simp only [dedupSeen]
    by_cases ha : a ∈ seen
    · rw [if_pos ha, ih, List.mem_cons]
      constructor
      · rintro ⟨hx, hns⟩; exact ⟨Or.inr hx, hns⟩
      · rintro ⟨h | h, hns⟩
        · subst h; exact absurd ha hns
        · exact ⟨h, hns⟩
    · rw [if_neg ha, List.mem_cons, ih, List.mem_cons, List.mem_cons]
      by_cases hxa : x = a
      · subst hxa; tauto
      · tauto

theorem dedupSeen_nodup : ∀ (xs seen : List (List Char)), (dedupSeen xs seen).Nodup := by
  intro xs
  induction xs with
  | nil => intro seen; simp [dedupSeen]
  | cons a rest ih =>
    intro seen
    simp only [dedupSeen]
    by_cases ha : a ∈ seen
    · rw [if_pos ha]; exact ih seen
    · rw [if_neg ha]
      refine List.nodup_cons.mpr ⟨fun hmem => ?_, ih _⟩
      exact ((dedupSeen_mem rest (a :: seen) a).mp hmem).2 (List.mem_cons_self a seen)

theorem dedupKeepFirst_isSetEnum : IsSetEnum dedupKeepFirst := by
  intro xs
  refine ⟨dedupSeen_nodup xs [], fun x => ?_⟩
  simpa [dedupKeepFirst] using dedupSeen_mem xs [] x

theorem revEnum_isSetEnum : IsSetEnum revEnum := by
  intro xs
  refine ⟨List.nodup_reverse.mpr (dedupSeen_nodup xs []), fun x => ?_⟩
  rw [revEnum, List.mem_reverse]
  simpa [dedupKeepFirst] using dedupSeen_mem xs [] x

/-- C2: for every query string, the expansion operation returns an ordered,
deduplicated sequence of strings whose first element is the original query,
with duplicates removed while preserving first-seen order.  REFUTED as to the
order: `_expand_query` returns `list(set(expansions))`, whose order is the
unspecified hash-dependent iteration order of a CPython `set`; under the
admissible enumeration `revEnum` the query `"regulation"` is not first. -/
theorem c2_counterexample :
    IsSetEnum revEnum ∧
      (PolicyRAGService.expand_query revEnum PolicyVectorStore.eurovocDefault
        (("regulation").data)).head? ≠ some (("regulation").data) :=
  ⟨revEnum_isSetEnum, by decide⟩

/-- C2 (amended): for every admissible set enumeration, the expansion result
is duplicate-free and contains exactly the original query together with the
concept-table and synonym-table expansion terms; the original query is an
element but its position — and the order of the whole sequence — is
unspecified. -/
theorem c2_expansion_set (enum : List (List Char) → List (List Char))
    (henum : IsSetEnum enum) (eurovocMap : List (List Char × List (List Char)))
    (q : List Char) :
    (PolicyRAGService.expand_query enum eurovocMap q).Nodup ∧
      q ∈ PolicyRAGService.expand_query enum eurovocMap q ∧
      ∀ x, x ∈ PolicyRAGService.expand_query enum eurovocMap q ↔
        x ∈ PolicyRAGService.expansionCandidates eurovocMap q := by
  obtain ⟨hnd, hmem⟩ := henum (PolicyRAGService.expansionCandidates eurovocMap q)
  refine ⟨hnd, ?_, hmem⟩
  rw [PolicyRAGService.expand_query, hmem]
  simp [PolicyRAGService.expansionCandidates]

/-- Witness for C2 (amended) at the concrete enumeration `dedupKeepFirst` and
query `"regulation"`. -/
theorem c2_expansion_set_witness :
    (PolicyRAGService.expand_query dedupKeepFirst PolicyVectorStore.eurovocDefault
      (("regulation").data)).Nodup ∧
    (("regulation").data) ∈ PolicyRAGService.expand_query dedupKeepFirst
      PolicyVectorStore.eurovocDefault (("regulation").data) :=
  ⟨(c2_expansion_set dedupKeepFirst dedupKeepFirst_isSetEnum
      PolicyVectorStore.eurovocDefault (("regulation").data)).1,
   (c2_expansion_set dedupKeepFirst dedupKeepFirst_isSetEnum
      PolicyVectorStore.eurovocDefault (("regulation").data)).2.1⟩

theorem pyStrip_sep_length (w : List Char) :
    (pyStrip (w ++ ((". ").data))).length ≤ w.length + 1 := by
  have hsp : isPySpace ' ' = true := rfl
  have hdot : isPySpace '.' = false := rfl
  have hd : ((". ").data) = ['.', ' '] := rfl
  have h1 : List.dropWhile isPySpace (' ' :: '.' :: w.reverse) = '.' :: w.reverse := by
    rw [List.dropWhile_cons, hsp, if_pos rfl, List.dropWhile_cons, hdot]
    simp
  have h2 : (w ++ ['.', ' ']).reverse = ' ' :: '.' :: w.reverse := by
    rw [List.reverse_append]; rfl
  rw [pyStrip, hd, h2, h1]
  calc (List.dropWhile isPySpace (('.' :: w.reverse).reverse)).length
      ≤ (('.' :: w.reverse).reverse).length := (List.dropWhile_sublist _).length_le
    _ = w.length + 1 := by simp

theorem bufOk_emit {maxL : Nat} {S : List (List Char)} {current : List Char}
    (h : BufOk maxL S current) (hne : current ≠ []) :
    ChunkBound maxL S (pyStrip current) := by
  rcases h with h | ⟨w, rfl, hw⟩
  · exact absurd h hne
  · rcases hw with hw | ⟨s, hs, hlen, hle⟩
    · exact Or.inl (le_trans (pyStrip_sep_length w) (by omega))
    · exact Or.inr ⟨s, hs, hlen, le_trans (pyStrip_sep_length w) (by omega)⟩

theorem chunkLoop_bound (maxL : Nat) (S : List (List Char)) :
    ∀ (sentences chunks : List (List Char)) (current : List Char),
      (∀ s ∈ sentences, s ∈ S) → (∀ c ∈ chunks, ChunkBound maxL S c) →
      BufOk maxL S current →
      ∀ c ∈ PolicyVectorStore.chunkLoop maxL sentences chunks current,
        ChunkBound maxL S c := by
  intro sentences
  induction sentences with
  | nil =>
    intro chunks current _ hch hbuf c hc
    simp only [PolicyVectorStore.chunkLoop] at hc
    split at hc
    · exact hch c hc
    · rcases List.mem_append.mp hc with h | h
      · exact hch c h
      · rw [List.mem_singleton] at h
        subst h
        exact bufOk_emit hbuf (by assumption)
  | cons s rest ih =>
    intro chunks current hsub hch hbuf c hc
    have hsub2 : ∀ t ∈ rest, t ∈ S := fun t ht => hsub t (List.mem_cons_of_mem s ht)
    have hsS : s ∈ S := hsub s (List.mem_cons_self s rest)
    have hbufS : BufOk maxL S (s ++ ((". ").data)) := by
      refine Or.inr ⟨s, rfl, ?_⟩
      by_cases hs : s.length ≤ maxL
      · exact Or.inl hs
      · exact Or.inr ⟨s, hsS, by omega, le_refl _⟩
    simp only [PolicyVectorStore.chunkLoop] at hc
    split at hc
    case isTrue hfit =>
      exact ih chunks _ hsub2 hch
        (Or.inr ⟨current ++ s, by rw [List.append_assoc], Or.inl hfit⟩) c hc
    case isFalse hnofit =>
      split at hc
      case isTrue hemp =>
        exact ih chunks _ hsub2 hch hbufS c hc
      case isFalse hemp =>
        refine ih (chunks ++ [pyStrip current]) _ hsub2 ?_ hbufS c hc
        intro d hd
        rcases List.mem_append.mp hd with h | h
        · exact hch d h
        · rw [List.mem_singleton] at h
          subst h
          exact bufOk_emit hbuf hemp

/-- C3 (amended): every chunk emitted by `_chunk_text` has length at most
`max_length + 1` — one more than the claimed bound, because the loop checks
`len(current + sentence) <= max_length` but then appends `sentence + ". "`,
and `strip()` removes only the trailing space — except chunks produced from a
single sentence that alone exceeds `max_length`, which are bounded by that
sentence's length plus one (the re-appended terminator). -/
theorem c3_chunk_length_bound (text : List Char) (maxL : Nat) (c : List Char)
    (hc : c ∈ PolicyVectorStore.chunk_text text maxL) :
    c.length ≤ maxL + 1 ∨
      ∃ s ∈ splitSentences text, maxL < s.length ∧ c.length ≤ s.length + 1 := by
  simp only [PolicyVectorStore.chunk_text] at hc
  split at hc
  · simp at hc
  · split at hc
    case isTrue hshort =>
      rw [List.mem_singleton] at hc
      subst hc
      exact Or.inl (by omega)
    case isFalse hlong =>
      split at hc
      case isTrue hnil =>
        rcases List.mem_map.mp hc with ⟨i, _, rfl⟩
        refine Or.inl ?_
        have : ((text.drop (i * maxL)).take maxL).length ≤ maxL := by simp
        omega
      case isFalse hnnil =>
        exact chunkLoop_bound maxL (splitSentences text) (splitSentences text) [] []
          (fun s hs => hs) (by simp) (Or.inl rfl) c hc

/-- C3: every chunk emitted by the chunking operation has length at most
`max_length`, except chunks produced from a single atomic sentence whose own
length exceeds `max_length`.  REFUTED: on `"abcdefghij. klmnop"` with
`max_length = 10` the code emits the chunk `"abcdefghij."` of length 11 even
though every sentence of the split has length at most 10 — the appended `". "`
separator survives `strip()` as a trailing period. -/
theorem c3_counterexample :
    (("abcdefghij.").data) ∈
        PolicyVectorStore.chunk_text (("abcdefghij. klmnop").data) 10 ∧
      10 < (("abcdefghij.").data).length ∧
      (splitSentences (("abcdefghij. klmnop").data)).all
        (fun s => s.length ≤ 10) = true := by decide

/-- Witness for C3 (amended) at the concrete input of the counterexample. -/
theorem c3_chunk_length_bound_witness :
    (("abcdefghij.").data) ∈
        PolicyVectorStore.chunk_text (("abcdefghij. klmnop").data) 10 ∧
      ((("abcdefghij.").data).length ≤ 10 + 1 ∨
        ∃ s ∈ splitSentences (("abcdefghij. klmnop").data),
          10 < s.length ∧ (("abcdefghij.").data).length ≤ s.length + 1) :=
  ⟨by decide,
   c3_chunk_length_bound (("abcdefghij. klmnop").data) 10 (("abcdefghij.").data)
     (by decide)⟩

theorem splitSentAux_no_sep :
    ∀ (fuel : Nat) (text acc : List Char), hasSeparator text = false →
      splitSentAux fuel text acc = [acc.reverse ++ text] := by
  intro fuel
  induction fuel with
  | zero => intro text acc _; rfl
  | succ n ih =>
    intro text acc h
    cases text with
    | nil => simp [splitSentAux]
    | cons c rest =>
      simp only [hasSeparator, Bool.or_eq_false_iff] at h
      simp only [splitSentAux, h.1, Bool.false_eq_true, if_false]
      rw [ih rest (c :: acc) h.2]
      simp

theorem splitSentences_no_sep (text : List Char) (h : hasSeparator text = false) :
    splitSentences text = [text] := by
  simpa [splitSentences] using splitSentAux_no_sep text.length text [] h

/-- C4 (amended): on non-empty text longer than `max_length` that contains no
sentence terminator followed by whitespace, `_chunk_text` returns the single
chunk `strip(text + ". ")` (the whole text treated as one over-long
sentence, with a period appended); the fixed-width fallback branch is
unreachable because the sentence loop always emits at least one chunk. -/
theorem c4_no_terminator_single_chunk (text : List Char) (maxL : Nat)
    (h1 : text ≠ []) (h2 : maxL < text.length) (h3 : hasSeparator text = false) :
    PolicyVectorStore.chunk_text text maxL = [pyStrip (text ++ ((". ").data))] := by
  have hne : text ++ ((". ").data) ≠ [] := by simp
  have hcons : PolicyVectorStore.chunkLoop maxL [text] [] []
      = if (([] : List Char) ++ text).length ≤ maxL then
          PolicyVectorStore.chunkLoop maxL [] [] ([] ++ text ++ ((". ").data))
        else if ([] : List Char) = [] then
          PolicyVectorStore.chunkLoop maxL [] [] (text ++ ((". ").data))
        else
          PolicyVectorStore.chunkLoop maxL [] ([] ++ [pyStrip []]) (text ++ ((". ").data)) := rfl
  have hnilstep : PolicyVectorStore.chunkLoop maxL [] [] (text ++ ((". ").data))
      = if text ++ ((". ").data) = [] then ([] : List (List Char))
        else [] ++ [pyStrip (text ++ ((". ").data))] := rfl
  have hloop : PolicyVectorStore.chunkLoop maxL [text] [] []
      = [pyStrip (text ++ ((". ").data))] := by
    rw [hcons, List.nil_append, if_neg (by omega), if_pos rfl, hnilstep, if_neg hne,
      List.nil_append]
  rw [PolicyVectorStore.chunk_text, if_neg h1, if_neg (by omega)]
  simp only [splitSentences_no_sep text h3, hloop]
  rw [if_neg (by simp)]

/-- C4: on non-empty text longer than `max_length` with no sentence-terminator
punctuation followed by whitespace, chunking returns the fixed-width slicing
into `max_length`-character pieces.  REFUTED: on `"abcdef"` with
`max_length = 3` the code returns the single chunk `"abcdef."`, not the
slices `["abc", "def"]` — the fallback branch is dead code. -/
theorem c4_counterexample :
    PolicyVectorStore.chunk_text (("abcdef").data) 3 = [(("abcdef.").data)] ∧
      PolicyVectorStore.fixedSlices (("abcdef").data) 3
        = [(("abc").data), (("def").data)] ∧
      PolicyVectorStore.chunk_text (("abcdef").data) 3
        ≠ PolicyVectorStore.fixedSlices (("abcdef").data) 3 := by decide

/-- Witness for C4 (amended) at the concrete input `"abcdef"`, `max_length = 3`. -/
theorem c4_no_terminator_single_chunk_witness :
    PolicyVectorStore.chunk_text (("abcdef").data) 3
      = [pyStrip ((("abcdef").data) ++ ((". ").data))] :=
  c4_no_terminator_single_chunk (("abcdef").data) 3 (by decide) (by decide) (by decide)

/-- C5 (amended): `load_index` fails (with the underlying faiss read error or
a file-not-found error) when any required artifact is missing, and otherwise
succeeds unconditionally, returning the artifacts as read — it performs no
consistency validation of the chunk count or dimension recorded in the config
against the loaded chunk list or vectors. -/
theorem c5_load_no_validation (dir : IndexDir) :
    ((dir.faiss_index = none ∨ dir.chunks_pkl = none ∨ dir.config_json = none) →
      ∃ e, PolicyVectorStore.load_index dir = .error e) ∧
    (∀ (vecs : List (List ℚ)) (cs : List DocumentChunk) (cfg : IndexConfig),
      dir.faiss_index = some vecs → dir.chunks_pkl = some cs →
      dir.config_json = some cfg →
      PolicyVectorStore.load_index dir
        = .ok ({ chunks := cs, vectors := vecs }, cfg)) := by
  obtain ⟨f, cpkl, cfgj⟩ := dir
  constructor
  · intro h
    rcases f with _ | vecs
    · exact ⟨.faissReadError, rfl⟩
    · rcases cpkl with _ | cs
      · exact ⟨.fileNotFound (("chunks.pkl").data), rfl⟩
      · rcases cfgj with _ | cfg
        · exact ⟨.fileNotFound (("config.json").data), rfl⟩
        · simp at h
  · intro vecs cs cfg hf hc hg
    dsimp only at hf hc hg
    subst hf
    subst hc
    subst hg
    rfl

/-- C5: `load_index` raises a not-found error when an artifact is missing and
a corrupt-index error when the recorded chunk count or dimension disagrees
with the loaded artifacts.  REFUTED on the validation half: a directory
holding one vector, an empty chunk list and a config recording five chunks
(and a disagreeing dimension) loads successfully — the method performs no
consistency check at all. -/
theorem c5_counterexample :
    (PolicyVectorStore.load_index mismatchDir).isOk = true ∧
      mismatchDir.chunks_pkl = some [] ∧ mismatchConfig.num_chunks = 5 := by
  with_unfolding_all decide

/-- Witness for C5 (amended): the all-artifacts-present branch applied to the
mismatched directory. -/
theorem c5_load_no_validation_witness :
    PolicyVectorStore.load_index mismatchDir
      = .ok ({ chunks := [], vectors := [[1]] }, mismatchConfig) :=
  (c5_load_no_validation mismatchDir).2 [[1]] [] mismatchConfig rfl rfl rfl

theorem embedBatchesAux_eq_map (embed : List Char → List ℚ) :
    ∀ (fuel : Nat) (ts : List (List Char)), ts.length ≤ fuel →
      PolicyVectorStore.embedBatchesAux embed fuel ts = ts.map embed := by
  intro fuel
  induction fuel with
  | zero =>
    intro ts h
    rw [Nat.le_zero, List.length_eq_zero] at h
    subst h
    rfl
  | succ n ih =>
    intro ts h
    cases ts with
    | nil => rfl
    | cons t rest =>
      have hlen : ((t :: rest).drop 32).length ≤ n := by
        rw [List.length_drop]
        simp only [List.length_cons] at h ⊢
        omega
      show ((t :: rest).take 32).map embed
          ++ PolicyVectorStore.embedBatchesAux embed n ((t :: rest).drop 32)
        = (t :: rest).map embed
      rw [ih ((t :: rest).drop 32) hlen, ← List.map_append, List.take_append_drop]

theorem embedBatches_eq_map (embed : List Char → List ℚ) (ts : List (List Char)) :
    PolicyVectorStore.embedBatches embed ts = ts.map embed :=
  embedBatchesAux_eq_map embed ts.length ts le_rfl

/-- C6: after ingesting a batch, the Chunk Store and the Similarity Index
hold the same number of entries and the vector at position `i` is the
embedding of the content of the chunk at position `i`.  CONFIRMED:
`add_documents` appends chunks and their texts in the same order and the
batch-of-32 embedding loop preserves that order, so the vector list is
exactly the map of `embed` over the chunk contents. -/
theorem c6_lockstep (embed : List Char → List ℚ)
    (enum : List (List Char) → List (List Char))
    (detectLang : List Char → Option (List Char)) (docs : List DocRecord) :
    ((PolicyVectorStore.add_documents embed enum detectLang docs
        { chunks := [], vectors := [] }).1).vectors
      = ((PolicyVectorStore.add_documents embed enum detectLang docs
          { chunks := [], vectors := [] }).1).chunks.map (fun c => embed c.content) ∧
    ((PolicyVectorStore.add_documents embed enum detectLang docs
        { chunks := [], vectors := [] }).1).vectors.length
      = ((PolicyVectorStore.add_documents embed enum detectLang docs
          { chunks := [], vectors := [] }).1).chunks.length := by
  have hvec : ((PolicyVectorStore.add_documents embed enum detectLang docs
      { chunks := [], vectors := [] }).1).vectors
      = ((PolicyVectorStore.add_documents embed enum detectLang docs
          { chunks := [], vectors := [] }).1).chunks.map (fun c => embed c.content) := by
    show [] ++ PolicyVectorStore.embedBatches embed
        ((docs.flatMap (PolicyVectorStore.processDoc enum detectLang)).map
          (fun c : DocumentChunk => c.content))
      = (([] : List DocumentChunk)
          ++ docs.flatMap (PolicyVectorStore.processDoc enum detectLang)).map
          (fun c : DocumentChunk => embed c.content)
    rw [List.nil_append, List.nil_append, embedBatches_eq_map, List.map_map]
    rfl
  exact ⟨hvec, by rw [hvec, List.length_map]⟩

theorem search_zero (embedQ : List Char → List ℚ) (st : Store) (t : List Char)
    (srcF docF : Option (List Char)) :
    PolicyVectorStore.search embedQ st t 0 srcF docF = [] := by
  simp [PolicyVectorStore.search, faissTopK, PolicyVectorStore.searchLoop]

theorem searchLoop_length_le (st : Store) (k : Nat)
    (srcF docF : Option (List Char)) :
    ∀ (cands : List (Nat × ℚ)) (acc : List (DocumentChunk × ℚ)),
      acc.length < k →
      (PolicyVectorStore.searchLoop st k srcF docF cands acc).length ≤ k := by
  intro cands
  induction cands with
  | nil => intro acc h; exact le_of_lt h
  | cons p rest ih =>
    intro acc h
    obtain ⟨i, score⟩ := p
    rcases hchunk : st.chunks[i]? with _ | chunk
    · simp only [PolicyVectorStore.searchLoop, hchunk]
      exact ih acc h
    · simp only [PolicyVectorStore.searchLoop, hchunk]
      split
      · split
        case isTrue h2 =>
          simp only [List.length_append, List.length_singleton]
          omega
        case isFalse h2 =>
          refine ih (acc ++ [(chunk, score)]) ?_
          simp only [List.length_append, List.length_singleton] at h2 ⊢
          omega
      · exact ih acc h

theorem search_length_le (embedQ : List Char → List ℚ) (st : Store)
    (q : List Char) (k : Nat) (srcF docF : Option (List Char)) :
    (PolicyVectorStore.search embedQ st q k srcF docF).length ≤ k := by
  cases k with
  | zero => rw [search_zero]; exact le_rfl
  | succ n =>
    exact searchLoop_length_le st (n + 1) srcF docF _ [] (by simp)

theorem flatMap_zero_searches (embedQ : List Char → List ℚ) (st : Store)
    (srcF docF : Option (List Char)) :
    ∀ plan : List (List Char × Nat), (∀ p ∈ plan, p.2 = 0) →
      plan.flatMap
        (fun p => PolicyVectorStore.search embedQ st p.1 p.2 srcF docF) = [] := by
  intro plan
  induction plan with
  | nil => intro _; rfl
  | cons p rest ih =>
    intro h
    show PolicyVectorStore.search embedQ st p.1 p.2 srcF docF
        ++ rest.flatMap (fun p => PolicyVectorStore.search embedQ st p.1 p.2 srcF docF)
      = []
    rw [h p (List.mem_cons_self p rest), search_zero, List.nil_append]
    exact ih (fun x hx => h x (List.mem_cons_of_mem p hx))

/-- C7 (amended): the secondary searches of `_retrieve_documents` use the
terms at positions 1-3 of the (unordered) expansion list, each requesting
exactly `k // 2` results — integer division with NO minimum — with the same
filters; consequently at `k = 1` every secondary search requests 0 results
and (in the embedding, where a 0-candidate search yields nothing, see
`faissTopK`) retrieval degenerates to the primary search alone. -/
theorem c7_secondary_requests (embedQ : List Char → List ℚ)
    (enum : List (List Char) → List (List Char)) (st : Store)
    (eurovocMap : List (List Char × List (List Char))) (q : List Char)
    (srcF docF : Option (List Char)) (k : Nat) :
    (∀ p ∈ PolicyRAGService.secondaryPlan enum eurovocMap q k, p.2 = k / 2) ∧
    (PolicyRAGService.secondaryPlan enum eurovocMap q k).length ≤ 3 ∧
    PolicyRAGService.retrieve_documents embedQ enum st eurovocMap q 1 srcF docF
      = PolicyVectorStore.search embedQ st q 1 srcF docF := by
  refine ⟨?_, ?_, ?_⟩
  · intro p hp
    simp only [PolicyRAGService.secondaryPlan] at hp
    rcases List.mem_map.mp hp with ⟨t, _, rfl⟩
    rfl
  · simp only [PolicyRAGService.secondaryPlan, List.length_map]
    simp
  · have hplan : ∀ p ∈ PolicyRAGService.secondaryPlan enum eurovocMap q 1, p.2 = 0 := by
      intro p hp
      simp only [PolicyRAGService.secondaryPlan] at hp
      rcases List.mem_map.mp hp with ⟨t, _, rfl⟩
      rfl
    have hflat := flatMap_zero_searches embedQ st srcF docF
      (PolicyRAGService.secondaryPlan enum eurovocMap q 1) hplan
    have hlen := search_length_le embedQ st q 1 srcF docF
    simp only [PolicyRAGService.retrieve_documents, hflat, List.append_nil]
    rcases hsearch : PolicyVectorStore.search embedQ st q 1 srcF docF with _ | ⟨x, rest⟩
    · rfl
    · rcases rest with _ | ⟨y, rest2⟩
      · obtain ⟨c, s⟩ := x
        simp [List.insertionSort, List.orderedInsert, PolicyRAGService.dedupResults]
      · rw [hsearch] at hlen
        simp at hlen

/-- C7: the retrieve operation performs secondary searches using the top 3
expansion terms excluding the original query, each requesting `k/2` results
by integer division with a minimum of 1.  REFUTED at `k = 1`: the code plans
three secondary searches requesting `1 // 2 = 0` results each — no minimum of
1 is applied. -/
theorem c7_counterexample :
    ((PolicyRAGService.secondaryPlan dedupKeepFirst PolicyVectorStore.eurovocDefault
        (("regulation").data) 1).map Prod.snd) = [0, 0, 0] ∧
      ((PolicyRAGService.secondaryPlan dedupKeepFirst PolicyVectorStore.eurovocDefault
          (("regulation").data) 1).map Prod.snd)
        ≠ List.replicate 3 (max (1 / 2) 1) := by decide

/-- Witness for C7 (amended) at a concrete store and query. -/
theorem c7_secondary_requests_witness :
    PolicyRAGService.retrieve_documents e1 dedupKeepFirst st1
      PolicyVectorStore.eurovocDefault (("q").data) 1 none none
      = PolicyVectorStore.search e1 st1 (("q").data) 1 none none :=
  (c7_secondary_requests e1 dedupKeepFirst st1 PolicyVectorStore.eurovocDefault
    (("q").data) none none 1).2.2

theorem parseLines_error (parse : List Char → Except (List Char) DocRecord) :
    ∀ (ls : List (List Char)) (l e : List Char),
      l ∈ ls → parse l = .error e →
      ∃ e2, PolicyVectorStore.parseLines parse ls = .error e2 := by
  intro ls
  induction ls with
  | nil => intro l e h _; simp at h
  | cons a rest ih =>
    intro l e hmem hpe
    cases hpa : parse a with
    | error ea =>
      exact ⟨.malformedLine a, by simp [PolicyVectorStore.parseLines, hpa]⟩
    | ok da =>
      rcases List.mem_cons.mp hmem with h | h
      · subst h
        rw [hpa] at hpe
        exact absurd hpe (by simp)
      · obtain ⟨e2, he2⟩ := ih l e h hpe
        exact ⟨e2, by simp [PolicyVectorStore.parseLines, hpa, he2]⟩

/-- C8 (amended): ingestion fails the whole batch when the stream cannot be
opened, and blank (whitespace-only) lines are skipped with no effect on the
result; but an individual malformed line is NOT skipped with a warning — its
parse error aborts the whole batch (the list comprehension propagates the
`json.loads` exception). -/
theorem c8_ingest_errors :
    (∀ parse, PolicyVectorStore.readDocuments parse none = .error .cannotOpen) ∧
    (∀ parse (blank : List Char) (lines : List (List Char)), pyStrip blank = [] →
      PolicyVectorStore.readDocuments parse (some (blank :: lines))
        = PolicyVectorStore.readDocuments parse (some lines)) ∧
    (∀ parse (lines : List (List Char)) (l e : List Char), l ∈ lines →
      ¬ pyStrip l = [] → parse l = .error e →
      ∃ e2, PolicyVectorStore.readDocuments parse (some lines) = .error e2) := by
  refine ⟨fun _ => rfl, ?_, ?_⟩
  · intro parse blank lines hblank
    simp [PolicyVectorStore.readDocuments, List.filter_cons, hblank]
  · intro parse lines l e hmem hnb hpe
    refine parseLines_error parse _ l e ?_ hpe
    rw [List.mem_filter]
    exact ⟨hmem, by simp [hnb]⟩

/-- C8: ingestion skips blank lines and skips individual malformed lines with
a warning without aborting the batch, failing only when the stream cannot be
opened.  REFUTED: with a stream that opens fine, one good line, one blank
line and one malformed line, the whole batch aborts with the parse error of
the malformed line. -/
theorem c8_counterexample :
    PolicyVectorStore.readDocuments toyParse
        (some [(("good").data), (("   ").data), (("oops").data)])
      = .error (.malformedLine (("oops").data)) := by decide

/-- Witness for C8 (amended): a blank line before a good line does not change
the result. -/
theorem c8_ingest_errors_witness :
    PolicyVectorStore.readDocuments toyParse (some [((" ").data), (("good").data)])
      = PolicyVectorStore.readDocuments toyParse (some [(("good").data)]) :=
  c8_ingest_errors.2.1 toyParse ((" ").data) [(("good").data)] (by decide)

theorem sourceBonus_nonneg (s : List Char) : 0 ≤ PolicyRAGService.sourceBonus s := by
  rw [PolicyRAGService.sourceBonus]
  split_ifs <;> norm_num

theorem recencyBonus_nonneg (daysOld : List Char → Option ℤ)
    (published : Option (List Char)) :
    0 ≤ PolicyRAGService.recencyBonus daysOld published := by
  rcases published with _ | p
  · simp [PolicyRAGService.recencyBonus]
  · simp only [PolicyRAGService.recencyBonus]
    split_ifs
    · norm_num
    · rcases daysOld p with _ | d
      · norm_num
      · dsimp only
        split_ifs <;> norm_num

theorem sourceScore_ge_half (daysOld : List Char → Option ℤ) (c : DocumentChunk) :
    (1 / 2 : ℚ) ≤ PolicyRAGService.sourceScore daysOld c := by
  rw [PolicyRAGService.sourceScore]
  refine le_min ?_ (by norm_num)
  have h1 := sourceBonus_nonneg c.source
  have h2 := recencyBonus_nonneg daysOld c.published
  linarith

theorem sourceScore_nonneg (daysOld : List Char → Option ℤ) (c : DocumentChunk) :
    0 ≤ PolicyRAGService.sourceScore daysOld c :=
  le_trans (by norm_num) (sourceScore_ge_half daysOld c)

theorem sum_ge_half_length :
    ∀ l : List ℚ, (∀ x ∈ l, (1 / 2 : ℚ) ≤ x) → (l.length : ℚ) / 2 ≤ l.sum := by
  intro l
  induction l with
  | nil => intro _; simp
  | cons a rest ih =>
    intro h
    have ha := h a (List.mem_cons_self a rest)
    have hr := ih (fun x hx => h x (List.mem_cons_of_mem a hx))
    simp only [List.sum_cons, List.length_cons]
    push_cast
    linarith

theorem avg_sourceScores_ge_half (daysOld : List Char → Option ℤ)
    (sources : List DocumentChunk) (h : sources ≠ []) :
    (1 / 2 : ℚ) ≤ (sources.map (PolicyRAGService.sourceScore daysOld)).sum
      / ((sources.map (PolicyRAGService.sourceScore daysOld)).length : ℚ) := by
  have hl : sources.map (PolicyRAGService.sourceScore daysOld) ≠ [] := by
    simpa using h
  have hlen : (0 : ℚ) < ((sources.map (PolicyRAGService.sourceScore daysOld)).length : ℚ) := by
    exact_mod_cast List.length_pos.mpr hl
  rw [le_div_iff₀ hlen]
  have hsum := sum_ge_half_length (sources.map (PolicyRAGService.sourceScore daysOld))
    (fun x hx => by
      rcases List.mem_map.mp hx with ⟨c, _, rfl⟩
      exact sourceScore_ge_half daysOld c)
  linarith

/-- C9 (amended): the confidence returned by `_estimate_confidence` always
lies in [0, 1] (the formula is `min(citation_score * 0.4 + avg * 0.6, 1)`
over non-negative terms); the citation count, however, counts every
bracket-citation occurrence with multiplicity, not distinct markers. -/
theorem c9_confidence_bounds (daysOld : List Char → Option ℤ) (answer : List Char)
    (sources : List DocumentChunk) :
    0 ≤ PolicyRAGService.estimate_confidence daysOld answer sources ∧
      PolicyRAGService.estimate_confidence daysOld answer sources ≤ 1 := by
  simp only [PolicyRAGService.estimate_confidence]
  refine ⟨le_min ?_ (by norm_num), min_le_right _ _⟩
  have h1 : (0 : ℚ) ≤
      (if 0 < min sources.length 6 then
        ((PolicyRAGService.countCitations answer : ℚ)) / ((min sources.length 6 : ℕ) : ℚ)
      else 0) := by
    split_ifs
    · positivity
    · norm_num
  have h2 : (0 : ℚ) ≤
      (if sources.map (PolicyRAGService.sourceScore daysOld) = [] then (0.5 : ℚ)
      else (sources.map (PolicyRAGService.sourceScore daysOld)).sum
        / ((sources.map (PolicyRAGService.sourceScore daysOld)).length : ℚ)) := by
    split_ifs
    · norm_num
    · refine div_nonneg (List.sum_nonneg ?_) (by positivity)
      intro x hx
      rcases List.mem_map.mp hx with ⟨c, _, rfl⟩
      exact sourceScore_nonneg daysOld c
  nlinarith [h1, h2]

/-- C9: when generation succeeds the confidence is
`0.4 * citation_score + 0.6 * avg_source_score` clamped to [0,1] with
`citation_score` built from the count of DISTINCT bracket-citation markers.
REFUTED: the code counts occurrences with multiplicity — for the answer
`"[1] and [1]"` over one EUR-Lex source the code yields confidence 1 (two
occurrences of one marker) where the distinct-marker formula yields 22/25. -/
theorem c9_counterexample :
    PolicyRAGService.countCitations (("[1] and [1]").data) = 2 ∧
      PolicyRAGService.distinctCitations (("[1] and [1]").data) = 1 ∧
      PolicyRAGService.estimate_confidence (fun _ => none) (("[1] and [1]").data)
        [chunkEurLex] = 1 ∧
      PolicyRAGService.confidenceSpec (fun _ => none) (("[1] and [1]").data)
        [chunkEurLex] = 22 / 25 ∧
      ¬ (1 : ℚ) = 22 / 25 := by
  with_unfolding_all decide

/-- C10: there exist an index state, a query and a source filter for which
`search` returns fewer than `k` results although at least `k` chunks matching
the filter are stored, because only the `k*3` nearest candidates are examined
before filtering and more than `2k` higher-scoring non-matching candidates
precede them.  CONFIRMED at `k = 1`: three higher-scoring source-"B" chunks
(more than `2*1`) fill the whole candidate list, so the single stored
source-"A" chunk is never reached and the search returns empty. -/
theorem c10_filter_starvation :
    PolicyVectorStore.search e1 st10 (("q").data) 1 (some (("A").data)) none = [] ∧
      1 ≤ (st10.chunks.filter (fun c => c.source == (("A").data))).length ∧
      (faissTopK (e1 (("q").data)) st10.vectors (1 * 3)).length = 3 ∧
      (faissTopK (e1 (("q").data)) st10.vectors (1 * 3)).all
        (fun p => ! ((st10.chunks.getD p.1 emptyChunk).source == (("A").data)))
        = true := by
  with_unfolding_all decide

theorem estimate_confidence_ge_of_sources (daysOld : List Char → Option ℤ)
    (answer : List Char) (sources : List DocumentChunk) (hs : sources ≠ []) :
    (3 / 10 : ℚ) ≤ PolicyRAGService.estimate_confidence daysOld answer sources := by
  have hmapne : sources.map (PolicyRAGService.sourceScore daysOld) ≠ [] := by
    simpa using hs
  simp only [PolicyRAGService.estimate_confidence, if_neg hmapne]
  refine le_min ?_ (by norm_num)
  have h2 := avg_sourceScores_ge_half daysOld sources hs
  split_ifs with h
  · have h1 : (0 : ℚ) ≤
        ((PolicyRAGService.countCitations answer : ℚ)) / ((min sources.length 6 : ℕ) : ℚ) := by
      positivity
    nlinarith
  · nlinarith

/-- C1 (amended): with the `"claude"` provider, a failing external call
(raise or non-success status) yields the answer `"LLM Error: <exception>"`
or `"API Error: <status>"` — not the deterministic fallback template, which
is reached only for other providers — no error escapes to the caller, and the
confidence is the ordinary estimate over that error answer, which is at least
0.3 (in particular not 0) whenever at least one source was retrieved. -/
theorem c1_provider_failure (outcome : LLMOutcome) (hfail : LLMFailed outcome)
    (daysOld : List Char → Option ℤ) (q : List Char)
    (sources : List DocumentChunk) (hs : sources ≠ []) :
    ((∃ e, (PolicyRAGService.generate_answer (("claude").data) outcome daysOld q sources).1
        = (("LLM Error: ").data) ++ e) ∨
      (∃ status, status ≠ 200 ∧
        (PolicyRAGService.generate_answer (("claude").data) outcome daysOld q sources).1
          = (("API Error: ").data) ++ ((toString status).data))) ∧
    (3 / 10 : ℚ) ≤
      (PolicyRAGService.generate_answer (("claude").data) outcome daysOld q sources).2 ∧
    (PolicyRAGService.generate_answer (("claude").data) outcome daysOld q sources).2 ≤ 1 := by
  have hcall : ∀ sys user, PolicyRAGService.call_llm (("claude").data) outcome sys user
      = (match outcome with
         | .exn e => (("LLM Error: ").data) ++ e
         | .response status body =>
           if status = 200 then body
           else (("API Error: ").data) ++ ((toString status).data)) := by
    intro sys user
    rw [PolicyRAGService.call_llm.eq_def, if_pos rfl]
    cases outcome <;> rfl
  cases outcome with
  | exn e =>
    refine ⟨Or.inl ⟨e, ?_⟩, ?_, ?_⟩
    · have hfst : (PolicyRAGService.generate_answer (("claude").data) (.exn e)
          daysOld q sources).1
          = PolicyRAGService.call_llm (("claude").data) (.exn e)
              (PolicyRAGService.buildSystemPrompt (("en").data))
              (PolicyRAGService.buildUserPrompt q sources) := rfl
      rw [hfst, hcall]
    · exact estimate_confidence_ge_of_sources daysOld _ sources hs
    · exact (c9_confidence_bounds daysOld _ sources).2
  | response status body =>
    have hst : status ≠ 200 := hfail
    refine ⟨Or.inr ⟨status, hst, ?_⟩, ?_, ?_⟩
    · have hfst : (PolicyRAGService.generate_answer (("claude").data)
          (.response status body) daysOld q sources).1
          = PolicyRAGService.call_llm (("claude").data) (.response status body)
              (PolicyRAGService.buildSystemPrompt (("en").data))
              (PolicyRAGService.buildUserPrompt q sources) := rfl
      rw [hfst, hcall]
      exact if_neg hst
    · exact estimate_confidence_ge_of_sources daysOld _ sources hs
    · exact (c9_confidence_bounds daysOld _ sources).2

/-- C1: when the external text-generation call fails, the composed answer is
the deterministic fallback template that still lists available sources, the
confidence is exactly 0, and no error is raised.  REFUTED: with the
`"claude"` provider and a 500 response over a one-EUR-Lex-chunk index,
`query` returns the answer `"API Error: 500"` — not the template — with
confidence 12/25, not 0 (no error is raised, as the embedding is total). -/
theorem c1_counterexample :
    (PolicyRAGService.query e1 dedupKeepFirst (("claude").data)
        (.response 500 []) (fun _ => none) st1 PolicyVectorStore.eurovocDefault
        (("q").data) none none 8).answer = (("API Error: 500").data) ∧
      (PolicyRAGService.query e1 dedupKeepFirst (("claude").data)
          (.response 500 []) (fun _ => none) st1 PolicyVectorStore.eurovocDefault
          (("q").data) none none 8).sources.length = 1 ∧
      (PolicyRAGService.query e1 dedupKeepFirst (("claude").data)
          (.response 500 []) (fun _ => none) st1 PolicyVectorStore.eurovocDefault
          (("q").data) none none 8).confidence = 12 / 25 ∧
      ¬ (PolicyRAGService.query e1 dedupKeepFirst (("claude").data)
          (.response 500 []) (fun _ => none) st1 PolicyVectorStore.eurovocDefault
          (("q").data) none none 8).confidence = 0 ∧
      ¬ (PolicyRAGService.query e1 dedupKeepFirst (("claude").data)
          (.response 500 []) (fun _ => none) st1 PolicyVectorStore.eurovocDefault
          (("q").data) none none 8).answer
        = PolicyRAGService.template_response
            (PolicyRAGService.buildUserPrompt (("q").data) [chunkEurLex]) := by
  with_unfolding_all decide

/-- Witness for C1 (amended): the failing 500-response outcome over one
retrieved source has confidence at least 0.3. -/
theorem c1_provider_failure_witness :
    (3 / 10 : ℚ) ≤ (PolicyRAGService.generate_answer (("claude").data)
      (.response 500 []) (fun _ => none) (("q").data) [chunkEurLex]).2 :=
  (c1_provider_failure (.response 500 []) (by show (500 : Nat) ≠ 200; decide)
    (fun _ => none) (("q").data) [chunkEurLex] (by decide)).2.1